import Mathlib

set_option maxHeartbeats 1000000

/-!
Verification of the PayPal-manager storage core (`main.py`, `github_storage.py`):
the ledger-merge function `add_import_to_historical`, the cleaning step that
synthesizes transaction codes, the upload fingerprint guard, the category
deletion handler, and the two remote-read functions of `GitHubStorage`.
Rows of a pandas DataFrame are embedded as a Lean structure with one field per
relevant column; a missing value (NaN/NaT) is `none`.
-/

namespace PaypalManager

/-- The `import_metadata` dict built at upload time in `main.py` (lines 350-357).
Older history entries may lack the `file_hash` key, hence the `Option`;
`imp.get('file_hash', '')` is modelled by `Option.getD _ ""`. -/
structure ImportBatchMetadata where
  mk ::
    (import_id : String := "") (filename : String := "")
    (import_date : String := "") (import_datetime : String := "")
    (total_records : Nat := 0) (file_hash : Option String := none)
  deriving DecidableEq, Repr

/-- One row of the transaction ledger. `data` is the parsed transaction date
(`pd.to_datetime(..., errors='coerce')`), modelled as an integer timestamp;
`none` is NaT. `codice_transazione` is the dedup key; `none` models NaN.
The four provenance columns are set by `add_import_to_historical`. -/
structure Record where
  mk ::
    (data : Option Int := none) (nome : String := "")
    (categoria : String := "") (codice_transazione : Option String := none)
    (id_univoco : Option String := none)
    (import_id : Option String := none) (import_date : Option String := none)
    (import_datetime : Option String := none)
    (import_filename : Option String := none)
  deriving DecidableEq, Repr

/-- A pandas DataFrame, as far as the merge logic observes it: its rows, plus
whether the `codice_transazione` column is present (`'codice_transazione' in
df.columns`).  The `data` column needs no presence flag: an absent date column
and an all-NaT date column produce the same ordering behaviour. -/
structure DataFrame where
  hasCodiceCol : Bool := true
  rows : List Record := []
  deriving DecidableEq, Repr

/-- What `add_import_to_historical` tells the caller via `st.warning` /
`st.success` (lines 168 and 171 of `main.py`). -/
inductive MergeMsg where
  | nessuna
  | tutteDuplicate
  | aggiunte (nuove duplicati : Nat)
  deriving DecidableEq, Repr

/-- Result of one call to `add_import_to_historical`: the returned ledger,
whether `save_historical_data` was invoked, and the message shown. -/
structure MergeOutcome where
  ledger : List Record
  wrote : Bool
  msg : MergeMsg
  deriving DecidableEq, Repr

/-- Lines 153-157 of `main.py`: stamp one incoming row with the import's
provenance columns. -/
def stampRecord (m : ImportBatchMetadata) (r : Record) : Record :=
  { r with import_id := some m.import_id, import_date := some m.import_date, import_datetime := some m.import_datetime, import_filename := some m.filename }

/-- `new_data_copy` after the provenance columns are assigned. -/
def stampList (m : ImportBatchMetadata) (rows : List Record) : List Record :=
  rows.map (stampRecord m)

/-- Line 164: `set(historical_df['codice_transazione'].dropna())` — the
transaction codes present in the existing ledger, missing values ignored. -/
def existingCodes (rows : List Record) : List String :=
  rows.filterMap fun r => r.codice_transazione

/-- Line 165: a stamped incoming row survives
`~new_data_copy['codice_transazione'].isin(existing_codes)` exactly when its
code is missing (NaN is never `isin` a set) or not among the existing codes. -/
def keepRecord (codes : List String) (r : Record) : Bool :=
  match r.codice_transazione with
  | none => true
  | some c => decide (c ∉ codes)

/-- Comparison used by the date sort: `keyGE a b` says `a`'s date key is ≥
`b`'s, where a missing date counts as strictly below every real date. -/
def keyGE (a b : Record) : Bool :=
  match a.data, b.data with
  | _, none => true
  | none, some _ => false
  | some x, some y => decide (y ≤ x)

/-- Insert a record into a list sorted non-increasingly by `keyGE`. -/
def insertByDateDesc (r : Record) : List Record → List Record
  | [] => [r]
  | x :: xs => if keyGE r x then r :: x :: xs else x :: insertByDateDesc r xs

/-- Sort a list of (dated) records non-increasingly by date. -/
def sortDatedDesc : List Record → List Record
  | [] => []
  | x :: xs => insertByDateDesc x (sortDatedDesc xs)

/-- The row has a (parseable) transaction date. -/
def datedB (r : Record) : Bool := r.data.isSome

/-- The row's transaction date is missing/unparseable (NaT). -/
def undatedB (r : Record) : Bool := r.data.isNone

/-- Lines 176-178: `df.sort_values('data', ascending=False)`. pandas `nargsort`
orders the non-null keys and then appends the null-key rows in their original
relative order (`na_position='last'`), which is exactly this definition. -/
def sortByDataDesc (l : List Record) : List Record :=
  sortDatedDesc (l.filter datedB) ++ l.filter undatedB

/-- Lines 147-181 of `main.py`, `add_import_to_historical`: stamp the incoming
batch with provenance, dedup by transaction code against the existing ledger
when both frames carry the code column, sort by date descending, and save
unless every incoming row was a duplicate. -/
def add_import_to_historical (historical incoming : DataFrame)
    (m : ImportBatchMetadata) : MergeOutcome :=
  let stamped := stampList m incoming.rows
  if historical.rows.isEmpty then
    { ledger := sortByDataDesc stamped, wrote := true, msg := MergeMsg.nessuna }
  else if historical.hasCodiceCol && incoming.hasCodiceCol then
    let codes := existingCodes historical.rows
    let nuove := stamped.filter (keepRecord codes)
    if nuove.isEmpty then
      { ledger := historical.rows, wrote := false, msg := MergeMsg.tutteDuplicate }
    else
      { ledger := sortByDataDesc (historical.rows ++ nuove), wrote := true,
        msg := MergeMsg.aggiunte nuove.length (stamped.length - nuove.length) }
  else
    { ledger := sortByDataDesc (historical.rows ++ stamped), wrote := true,
      msg := MergeMsg.nessuna }

/-- The row sequence that `add_import_to_historical` passes to the date sort
(`updated_historical` just before line 176), branch by branch. -/
def pre_sort_rows (historical incoming : DataFrame)
    (m : ImportBatchMetadata) : List Record :=
  let stamped := stampList m incoming.rows
  if historical.rows.isEmpty then stamped
  else if historical.hasCodiceCol && incoming.hasCodiceCol then
    let codes := existingCodes historical.rows
    let nuove := stamped.filter (keepRecord codes)
    if nuove.isEmpty then historical.rows else historical.rows ++ nuove
  else historical.rows ++ stamped

/-- Lines 96-103 of `clean_and_standardize_df`: when the batch has no
`codice_transazione` column, or the column is entirely NaN, every row gets the
synthetic code `TXN_<position>`; otherwise NaN codes become `''` and all codes
become strings.  Line 103 then derives `id_univoco = <code>_<position>`. -/
def clean_and_standardize_codes (hasCodiceCol : Bool) (rows : List Record) :
    List Record :=
  let withCodes :=
    if !hasCodiceCol || rows.all (fun r => r.codice_transazione.isNone) then
      rows.enum.map fun p =>
        { p.2 with codice_transazione := some ("TXN_" ++ toString p.1) }
    else
      rows.map fun r =>
        { r with codice_transazione := some (r.codice_transazione.getD "") }
  withCodes.enum.map fun p =>
    { p.2 with id_univoco := some ((p.2.codice_transazione.getD "") ++ "_" ++ toString p.1) }

/-- Observable outcome of the upload handler (lines 336-368 of `main.py`). -/
structure UploadResult where
  skipped : Bool
  mergerInvoked : Bool
  ledgerWritten : Bool
  metadataWritten : Bool
  ledger : List Record
  history : List ImportBatchMetadata
  deriving DecidableEq, Repr

/-- Lines 336-368 of `main.py`: the upload flow. The raw-byte fingerprint
(`get_file_hash`) is compared against `imp.get('file_hash', '')` over the
history; on a fingerprint match the upload is only warned about — no parsing, no
merge, no writes.  Otherwise the merger runs (which itself writes the ledger
only when it found new rows) and the metadata document is rewritten with the
new history entry appended. -/
def process_upload (history : List ImportBatchMetadata) (fileHash : String)
    (historical incoming : DataFrame) (m : ImportBatchMetadata) : UploadResult :=
  if fileHash ∈ history.map (fun imp => imp.file_hash.getD "") then
    { skipped := true, mergerInvoked := false, ledgerWritten := false,
      metadataWritten := false, ledger := historical.rows, history := history }
  else
    let res := add_import_to_historical historical incoming m
    { skipped := false, mergerInvoked := true, ledgerWritten := res.wrote,
      metadataWritten := true, ledger := res.ledger, history := history ++ [m] }

/-- The metadata document (`data/system_metadata.json`): taxonomy plus import
history.  A JSON dict is observed through `.get(key, default)` in `main.py`,
so an absent key and the default value are indistinguishable; the Python `{}`
returned on an exception is the all-defaults document `empty_metadata`. -/
structure MetadataDoc where
  mk ::
    (categories : List String := [])
    (subcategories : List (String × List String) := [])
    (import_history : List ImportBatchMetadata := [])
    (last_update : Option String := none)
  deriving DecidableEq, Repr

/-- Lines 141-151 of `github_storage.py`: the built-in default metadata
returned when the remote GET for the metadata file is not a 200. -/
def default_metadata : MetadataDoc :=
  { categories := ["Software", "Domini e Hosting", "Servizi Web", "Abbonamenti",
                   "Hardware", "Consulenze", "Marketing", "Altro"]
    subcategories :=
      [("Software", ["Licenze", "Abbonamenti SaaS", "Plugin", "Applicazioni"]),
       ("Domini e Hosting", ["Registrazione Domini", "Hosting Web", "SSL", "CDN"]),
       ("Servizi Web", ["API", "Cloud Storage", "Email Service", "Backup"]),
       ("Marketing", ["Advertising", "Social Media", "Email Marketing", "SEO Tools"])]
    last_update := none }

/-- The Python `{}` returned by `load_metadata` when the request or decoding
raises: a mapping with no categories and no import history at all. -/
def empty_metadata : MetadataDoc := {}

/-- What one `requests.get` + decode attempt against the content API can
produce: an HTTP response with a status code whose body either decodes to an
`α` or makes the decoder raise, or an exception from the request itself. -/
inductive FetchOutcome (α : Type) where
  | response (status : Nat) (decoded : Except String α)
  | exn (msg : String)
  deriving Repr

/-- The fetch yielded a 200 whose content decoded successfully. -/
def fetchSucceeded {α : Type} : FetchOutcome α → Bool
  | FetchOutcome.response status (Except.ok _) => status == 200
  | _ => false

/-- Lines 69-95 of `github_storage.py`, `GitHubStorage.load_dataframe`: on a
200 the decoded rows are returned; any non-200 status hits the `else` branch
and returns `pd.DataFrame()`; any exception (network or base64/CSV decode) is
caught and also returns `pd.DataFrame()`.  The function is total: no outcome
escapes as an exception. -/
def load_dataframe : FetchOutcome (List Record) → List Record
  | FetchOutcome.response status (Except.ok rows) =>
      if status == 200 then rows else []
  | FetchOutcome.response _ (Except.error _) => []
  | FetchOutcome.exn _ => []

/-- Lines 130-155 of `github_storage.py`, `GitHubStorage.load_metadata`: on a
200 the decoded document is returned (a decode failure is caught by the
`except` and yields `{}`); on any non-200 status the built-in default document
is returned; an exception from the request yields `{}`. -/
def load_metadata : FetchOutcome MetadataDoc → MetadataDoc
  | FetchOutcome.response status (Except.ok doc) =>
      if status == 200 then doc else default_metadata
  | FetchOutcome.response status (Except.error _) =>
      if status == 200 then empty_metadata else default_metadata
  | FetchOutcome.exn _ => empty_metadata

/-- The application state the category handlers can see: the metadata document
and the historical ledger loaded from GitHub. -/
structure AppState where
  metadata : MetadataDoc
  historical : List Record
  deriving DecidableEq, Repr

/-- Lines 292-297 of `main.py`, the category delete handler:
`categories.remove(cat)` (first occurrence), and if the category has a
subcategory entry, `del metadata['subcategories'][cat]`. -/
def removeCategory (meta : MetadataDoc) (name : String) : MetadataDoc :=
  { meta with
      categories := meta.categories.erase name
      subcategories :=
        if name ∈ meta.subcategories.map Prod.fst then
          meta.subcategories.filter fun kv => decide (kv.1 ≠ name)
        else meta.subcategories }

/-- The whole delete-button handler: it edits and saves the metadata document
only; `historical_df` and `save_historical_data` never appear in it. -/
def delete_category_handler (s : AppState) (name : String) : AppState :=
  { s with metadata := removeCategory s.metadata name }

/-- Fixture: existing-ledger row with code `A`. -/
def recA : Record :=
  { data := some 1, nome := "vendorA", codice_transazione := some "A" }

/-- Fixture: existing-ledger row with code `B`. -/
def recB : Record :=
  { data := some 2, nome := "vendorB-existing", codice_transazione := some "B" }

/-- Fixture: incoming row with code `B`, distinguishable from `recB`. -/
def recBin : Record :=
  { data := some 3, nome := "vendorB-incoming", codice_transazione := some "B" }

/-- Fixture: incoming row with the new code `C`. -/
def recC : Record :=
  { data := some 4, nome := "vendorC", codice_transazione := some "C" }

/-- Fixture: a raw row with no transaction code (first codeless batch). -/
def rawGennaio : Record := { nome := "bonifico-gennaio" }

/-- Fixture: a distinct raw row with no transaction code (second batch). -/
def rawFebbraio : Record := { nome := "bonifico-febbraio" }

/-- Fixture: provenance of a first import. -/
def metaOne : ImportBatchMetadata :=
  { import_id := "PP_20260101_EstrattoGennaio", import_date := "2026-01-01",
    filename := "EstrattoGennaio.xlsx", import_datetime := "2026-01-01 10:00:00",
    total_records := 2, file_hash := some "d41d8cd98f00b204" }

/-- Fixture: provenance of a second import. -/
def metaTwo : ImportBatchMetadata :=
  { import_id := "PP_20260201_EstrattoFebbraio", import_date := "2026-02-01",
    filename := "EstrattoFebbraio.xlsx", import_datetime := "2026-02-01 09:30:00",
    total_records := 2, file_hash := some "9e107d9d372bb682" }

/-- The ledger is non-increasing by date key, missing dates counting as bottom;
this is the §3 ordering invariant as a predicate on row lists. -/
def DescByData (l : List Record) : Prop :=
  l.Pairwise fun a b => keyGE a b = true

instance : DecidablePred DescByData := fun l =>
  List.instDecidablePairwise l

theorem stampRecord_codice (m : ImportBatchMetadata) (r : Record) :
    (stampRecord m r).codice_transazione = r.codice_transazione := rfl

theorem stampRecord_data (m : ImportBatchMetadata) (r : Record) :
    (stampRecord m r).data = r.data := rfl

theorem keyGE_none_right (a : Record) {b : Record} (hb : b.data = none) :
    keyGE a b = true := by
  unfold keyGE
  rw [hb]
  cases a.data <;> rfl

theorem keyGE_total {a b : Record} (h : keyGE a b = false) : keyGE b a = true := by
  unfold keyGE at h ⊢
  cases ha : a.data <;> cases hb : b.data <;> simp_all <;> omega

theorem keyGE_trans {a b c : Record} (h1 : keyGE a b = true)
    (h2 : keyGE b c = true) : keyGE a c = true := by
  unfold keyGE at h1 h2 ⊢
  cases ha : a.data <;> cases hb : b.data <;> cases hc : c.data <;> simp_all <;> omega

theorem perm_insertByDateDesc (r : Record) (l : List Record) :
    List.Perm (insertByDateDesc r l) (r :: l) := by
  induction l with
  | nil => exact List.Perm.refl _
  | cons x xs ih =>
    unfold insertByDateDesc
    by_cases h : keyGE r x = true
    · rw [if_pos h]
    · rw [if_neg h]
      exact (ih.cons x).trans (List.Perm.swap r x xs)

theorem mem_insertByDateDesc {a r : Record} {l : List Record} :
    a ∈ insertByDateDesc r l ↔ a = r ∨ a ∈ l := by
  rw [(perm_insertByDateDesc r l).mem_iff, List.mem_cons]

theorem perm_sortDatedDesc (l : List Record) :
    List.Perm (sortDatedDesc l) l := by
  induction l with
  | nil => exact List.Perm.refl _
  | cons x xs ih =>
    exact (perm_insertByDateDesc x (sortDatedDesc xs)).trans (ih.cons x)

theorem pairwise_insertByDateDesc {r : Record} {l : List Record}
    (h : DescByData l) : DescByData (insertByDateDesc r l) := by
  induction l with
  | nil => simp [insertByDateDesc, DescByData]
  | cons x xs ih =>
    rw [DescByData, List.pairwise_cons] at h
    obtain ⟨hx, hxs⟩ := h
    unfold insertByDateDesc
    by_cases hk : keyGE r x = true
    · rw [if_pos hk]
      refine List.Pairwise.cons ?_ (List.Pairwise.cons hx hxs)
      intro b hb
      rcases List.mem_cons.mp hb with rfl | hb
      · exact hk
      · exact keyGE_trans hk (hx b hb)
    · rw [if_neg hk]
      refine List.Pairwise.cons ?_ (ih hxs)
      intro b hb
      rcases mem_insertByDateDesc.mp hb with rfl | hb
      · exact keyGE_total (Bool.not_eq_true _ ▸ hk)
      · exact hx b hb

theorem pairwise_sortDatedDesc (l : List Record) :
    DescByData (sortDatedDesc l) := by
  induction l with
  | nil => exact List.Pairwise.nil
  | cons x xs ih => exact pairwise_insertByDateDesc ih

theorem pairwise_of_all_undated {l : List Record}
    (h : ∀ b ∈ l, b.data = none) : DescByData l := by
  induction l with
  | nil => exact List.Pairwise.nil
  | cons x xs ih =>
    refine List.Pairwise.cons ?_ (ih fun b hb => h b (List.mem_cons_of_mem _ hb))
    intro b hb
    exact keyGE_none_right x (h b (List.mem_cons_of_mem _ hb))

theorem filter_undated_eq_not_dated (l : List Record) :
    l.filter undatedB = l.filter fun r => !(datedB r) := by
  apply List.filter_congr
  intro r _
  cases h : r.data <;> simp [undatedB, datedB, h]

theorem perm_sortByDataDesc (l : List Record) :
    List.Perm (sortByDataDesc l) l := by
  unfold sortByDataDesc
  refine ((perm_sortDatedDesc _).append_right _).trans ?_
  rw [filter_undated_eq_not_dated]
  exact List.filter_append_perm datedB l

theorem undated_of_mem_filter {b : Record} {l : List Record}
    (hb : b ∈ l.filter undatedB) : b.data = none := by
  have h := (List.mem_filter.mp hb).2
  simpa [undatedB, Option.isNone_iff_eq_none] using h

theorem pairwise_sortByDataDesc (l : List Record) :
    DescByData (sortByDataDesc l) := by
  unfold sortByDataDesc DescByData
  rw [List.pairwise_append]
  refine ⟨pairwise_sortDatedDesc _, pairwise_of_all_undated ?_, ?_⟩
  · exact fun b hb => undated_of_mem_filter hb
  · intro a _ b hb
    exact keyGE_none_right a (undated_of_mem_filter hb)

theorem sortByDataDesc_filter_undated (l : List Record) :
    (sortByDataDesc l).filter undatedB = l.filter undatedB := by
  unfold sortByDataDesc
  rw [List.filter_append]
  have h1 : (sortDatedDesc (l.filter datedB)).filter undatedB = [] := by
    rw [List.filter_eq_nil_iff]
    intro a ha
    have hmem : a ∈ l.filter datedB := (perm_sortDatedDesc _).mem_iff.mp ha
    have hd := (List.mem_filter.mp hmem).2
    simp only [undatedB, datedB] at hd ⊢
    cases h : a.data <;> simp_all
  rw [h1, List.nil_append, List.filter_filter]
  apply List.filter_congr
  intro a _
  exact Bool.and_self _

theorem sortByDataDesc_ne_nil {l : List Record} (h : l ≠ []) :
    sortByDataDesc l ≠ [] := by
  intro hnil
  have hp := perm_sortByDataDesc l
  rw [hnil] at hp
  exact h hp.nil_eq.symm

theorem add_import_empty (historical incoming : DataFrame)
    (m : ImportBatchMetadata) (h : historical.rows = []) :
    add_import_to_historical historical incoming m =
      { ledger := sortByDataDesc (stampList m incoming.rows), wrote := true,
        msg := MergeMsg.nessuna } := by
  simp [add_import_to_historical, h]

theorem add_import_all_dup (historical incoming : DataFrame)
    (m : ImportBatchMetadata) (hne : historical.rows ≠ [])
    (h1 : historical.hasCodiceCol = true) (h2 : incoming.hasCodiceCol = true)
    (hnil : (stampList m incoming.rows).filter
        (keepRecord (existingCodes historical.rows)) = []) :
    add_import_to_historical historical incoming m =
      { ledger := historical.rows, wrote := false,
        msg := MergeMsg.tutteDuplicate } := by
  simp [add_import_to_historical, hne, h1, h2, hnil]

theorem add_import_some_new (historical incoming : DataFrame)
    (m : ImportBatchMetadata) (hne : historical.rows ≠ [])
    (h1 : historical.hasCodiceCol = true) (h2 : incoming.hasCodiceCol = true)
    (hnn : (stampList m incoming.rows).filter
        (keepRecord (existingCodes historical.rows)) ≠ []) :
    add_import_to_historical historical incoming m =
      { ledger := sortByDataDesc (historical.rows ++
          (stampList m incoming.rows).filter
            (keepRecord (existingCodes historical.rows))),
        wrote := true,
        msg := MergeMsg.aggiunte
          ((stampList m incoming.rows).filter
            (keepRecord (existingCodes historical.rows))).length
          ((stampList m incoming.rows).length -
            ((stampList m incoming.rows).filter
              (keepRecord (existingCodes historical.rows))).length) } := by
  simp [add_import_to_historical, hne, h1, h2, hnn]

theorem add_import_no_col (historical incoming : DataFrame)
    (m : ImportBatchMetadata) (hne : historical.rows ≠ [])
    (hcol : (historical.hasCodiceCol && incoming.hasCodiceCol) = false) :
    add_import_to_historical historical incoming m =
      { ledger := sortByDataDesc (historical.rows ++ stampList m incoming.rows),
        wrote := true, msg := MergeMsg.nessuna } := by
  simp [add_import_to_historical, hne, hcol]

theorem mem_existingCodes {c : String} {rows : List Record} :
    c ∈ existingCodes rows ↔ ∃ r ∈ rows, r.codice_transazione = some c := by
  simp [existingCodes, List.mem_filterMap]

theorem existingCodes_mem_of_perm {c : String} {l l' : List Record}
    (h : List.Perm l l') (hc : c ∈ existingCodes l) : c ∈ existingCodes l' :=
  (h.filterMap fun r => r.codice_transazione).mem_iff.mp hc

theorem keepRecord_eq_false_iff {codes : List String} {r : Record} :
    keepRecord codes r = false ↔
      ∃ c, r.codice_transazione = some c ∧ c ∈ codes := by
  unfold keepRecord
  cases h : r.codice_transazione <;> simp [h]

theorem nuove_nil_of_all_dup {historical incoming : DataFrame}
    {m : ImportBatchMetadata}
    (hall : ∀ r ∈ incoming.rows, ∃ c, r.codice_transazione = some c ∧
        c ∈ existingCodes historical.rows) :
    (stampList m incoming.rows).filter
      (keepRecord (existingCodes historical.rows)) = [] := by
  rw [List.filter_eq_nil_iff]
  intro a ha
  simp only [stampList, List.mem_map] at ha
  obtain ⟨r, hr, rfl⟩ := ha
  obtain ⟨c, hc, hmem⟩ := hall r hr
  rw [Bool.not_eq_true, keepRecord_eq_false_iff]
  exact ⟨c, by rw [stampRecord_codice]; exact hc, hmem⟩

theorem merge_noop_of_all_dup {historical incoming : DataFrame}
    {m : ImportBatchMetadata} (hne : historical.rows ≠ [])
    (h1 : historical.hasCodiceCol = true) (h2 : incoming.hasCodiceCol = true)
    (hall : ∀ r ∈ incoming.rows, ∃ c, r.codice_transazione = some c ∧
        c ∈ existingCodes historical.rows) :
    add_import_to_historical historical incoming m =
      { ledger := historical.rows, wrote := false,
        msg := MergeMsg.tutteDuplicate } :=
  add_import_all_dup historical incoming m hne h1 h2 (nuove_nil_of_all_dup hall)

theorem ledger_ne_nil {L B : DataFrame} {m : ImportBatchMetadata}
    (h : L.rows ≠ [] ∨ B.rows ≠ []) :
    (add_import_to_historical L B m).ledger ≠ [] := by
  by_cases hL : L.rows = []
  · have hB : B.rows ≠ [] := h.resolve_left (by simp [hL])
    rw [add_import_empty L B m hL]
    exact sortByDataDesc_ne_nil (by simp [stampList, hB])
  · by_cases hcol : (L.hasCodiceCol && B.hasCodiceCol) = true
    · have h1 : L.hasCodiceCol = true := (Bool.and_eq_true _ _).mp hcol |>.1
      have h2 : B.hasCodiceCol = true := (Bool.and_eq_true _ _).mp hcol |>.2
      by_cases hnil : (stampList m B.rows).filter
          (keepRecord (existingCodes L.rows)) = []
      · rw [add_import_all_dup L B m hL h1 h2 hnil]
        exact hL
      · rw [add_import_some_new L B m hL h1 h2 hnil]
        exact sortByDataDesc_ne_nil (List.append_ne_nil_of_left_ne_nil hL _)
    · rw [add_import_no_col L B m hL (Bool.not_eq_true _ ▸ hcol)]
      exact sortByDataDesc_ne_nil (List.append_ne_nil_of_left_ne_nil hL _)

theorem code_mem_ledger_codes {L B : DataFrame} {m : ImportBatchMetadata}
    {r : Record} (hr : r ∈ B.rows) {c : String}
    (hc : r.codice_transazione = some c) :
    c ∈ existingCodes ((add_import_to_historical L B m).ledger) := by
  have hstamp : stampRecord m r ∈ stampList m B.rows :=
    List.mem_map_of_mem _ hr
  have hcs : (stampRecord m r).codice_transazione = some c := by
    rw [stampRecord_codice]; exact hc
  by_cases hL : L.rows = []
  · rw [add_import_empty L B m hL]
    exact existingCodes_mem_of_perm (perm_sortByDataDesc _).symm
      (mem_existingCodes.mpr ⟨stampRecord m r, hstamp, hcs⟩)
  · by_cases hcol : (L.hasCodiceCol && B.hasCodiceCol) = true
    · have h1 : L.hasCodiceCol = true := (Bool.and_eq_true _ _).mp hcol |>.1
      have h2 : B.hasCodiceCol = true := (Bool.and_eq_true _ _).mp hcol |>.2
      by_cases hnil : (stampList m B.rows).filter
          (keepRecord (existingCodes L.rows)) = []
      · rw [add_import_all_dup L B m hL h1 h2 hnil]
        have := (List.filter_eq_nil_iff.mp hnil) _ hstamp
        rw [Bool.not_eq_true, keepRecord_eq_false_iff] at this
        obtain ⟨c', hc', hmem⟩ := this
        rw [hcs] at hc'
        exact Option.some_injective _ hc' ▸ hmem
      · rw [add_import_some_new L B m hL h1 h2 hnil]
        refine existingCodes_mem_of_perm (perm_sortByDataDesc _).symm ?_
        by_cases hk : keepRecord (existingCodes L.rows) (stampRecord m r) = true
        · exact mem_existingCodes.mpr ⟨stampRecord m r,
            List.mem_append_right _ (List.mem_filter.mpr ⟨hstamp, hk⟩), hcs⟩
        · rw [Bool.not_eq_true, keepRecord_eq_false_iff] at hk
          obtain ⟨c', hc', hmem⟩ := hk
          rw [hcs] at hc'
          obtain rfl : c = c' := Option.some_injective _ hc'
          obtain ⟨r', hr', hcr⟩ := mem_existingCodes.mp hmem
          exact mem_existingCodes.mpr ⟨r', List.mem_append_left _ hr', hcr⟩
    · rw [add_import_no_col L B m hL (Bool.not_eq_true _ ▸ hcol)]
      exact existingCodes_mem_of_perm (perm_sortByDataDesc _).symm
        (mem_existingCodes.mpr ⟨stampRecord m r,
          List.mem_append_right _ hstamp, hcs⟩)

theorem wrote_ledger_eq_sort (historical incoming : DataFrame)
    (m : ImportBatchMetadata)
    (hw : (add_import_to_historical historical incoming m).wrote = true) :
    (add_import_to_historical historical incoming m).ledger =
      sortByDataDesc (pre_sort_rows historical incoming m) := by
  by_cases hL : historical.rows = []
  · rw [add_import_empty _ _ _ hL]
    simp [pre_sort_rows, hL]
  · by_cases hcol : (historical.hasCodiceCol && incoming.hasCodiceCol) = true
    · obtain ⟨h1, h2⟩ := (Bool.and_eq_true _ _).mp hcol
      by_cases hnil : (stampList m incoming.rows).filter
          (keepRecord (existingCodes historical.rows)) = []
      · rw [add_import_all_dup _ _ _ hL h1 h2 hnil] at hw
        exact absurd hw (by simp)
      · rw [add_import_some_new _ _ _ hL h1 h2 hnil]
        simp [pre_sort_rows, hL, h1, h2, hnil]
    · rw [add_import_no_col _ _ _ hL (Bool.not_eq_true _ ▸ hcol)]
      have hcolf : (historical.hasCodiceCol && incoming.hasCodiceCol) = false :=
        Bool.not_eq_true _ ▸ hcol
      simp [pre_sort_rows, hL, hcolf]

/-- C3: every ledger the merge produces and persists is sorted by transaction
date in non-increasing order, with records whose date is missing or
unparseable coming after all dated records and keeping their prior relative
order from the pre-sort row sequence; the sort only reorders, so the
persisted ledger is a permutation of the pre-sort rows. -/
theorem merge_ordering_invariant (historical incoming : DataFrame)
    (m : ImportBatchMetadata)
    (hw : (add_import_to_historical historical incoming m).wrote = true) :
    DescByData (add_import_to_historical historical incoming m).ledger ∧
    ((add_import_to_historical historical incoming m).ledger).filter undatedB =
      (pre_sort_rows historical incoming m).filter undatedB ∧
    List.Perm ((add_import_to_historical historical incoming m).ledger)
      (pre_sort_rows historical incoming m) := by
  rw [wrote_ledger_eq_sort historical incoming m hw]
  exact ⟨pairwise_sortByDataDesc _, sortByDataDesc_filter_undated _,
    perm_sortByDataDesc _⟩

/-- Witness for the ordering invariant: a concrete merge of a dated and an
undated row into a two-row ledger. -/
theorem merge_ordering_invariant_witness :
    DescByData (add_import_to_historical ⟨true, [recA, recB]⟩
        ⟨true, [recC, rawFebbraio]⟩ metaTwo).ledger ∧
    ((add_import_to_historical ⟨true, [recA, recB]⟩
        ⟨true, [recC, rawFebbraio]⟩ metaTwo).ledger).filter undatedB =
      (pre_sort_rows ⟨true, [recA, recB]⟩
        ⟨true, [recC, rawFebbraio]⟩ metaTwo).filter undatedB ∧
    List.Perm ((add_import_to_historical ⟨true, [recA, recB]⟩
        ⟨true, [recC, rawFebbraio]⟩ metaTwo).ledger)
      (pre_sort_rows ⟨true, [recA, recB]⟩ ⟨true, [recC, rawFebbraio]⟩ metaTwo) :=
  merge_ordering_invariant _ _ _ (by decide)

/-- C1: when the existing ledger is non-empty and both frames carry the
transaction-code column, the merge keeps exactly the incoming records whose
code is absent from the set of codes present in the existing ledger (missing
values ignored), drops the rest, and appends the kept records to the existing
ledger before the date sort — the resulting ledger is a permutation of that
concatenation; on the {A,B} versus {B,C} scenario the result is the record
set {A,B,C} with B taken from the existing ledger, and the caller is told
1 new record and 1 duplicate skipped. -/
theorem merge_keeps_exactly_new_codes :
    (∀ (historical incoming : DataFrame) (m : ImportBatchMetadata),
        historical.rows ≠ [] → historical.hasCodiceCol = true →
        incoming.hasCodiceCol = true →
        List.Perm ((add_import_to_historical historical incoming m).ledger)
          (historical.rows ++ (stampList m incoming.rows).filter
            (keepRecord (existingCodes historical.rows)))) ∧
    ((add_import_to_historical ⟨true, [recA, recB]⟩ ⟨true, [recBin, recC]⟩
        metaOne).msg = MergeMsg.aggiunte 1 1 ∧
      List.Perm ((add_import_to_historical ⟨true, [recA, recB]⟩
          ⟨true, [recBin, recC]⟩ metaOne).ledger)
        [recA, recB, stampRecord metaOne recC] ∧
      stampRecord metaOne recBin ∉
        (add_import_to_historical ⟨true, [recA, recB]⟩ ⟨true, [recBin, recC]⟩
          metaOne).ledger) := by
  constructor
  · intro historical incoming m hne h1 h2
    by_cases hnil : (stampList m incoming.rows).filter
        (keepRecord (existingCodes historical.rows)) = []
    · rw [add_import_all_dup _ _ _ hne h1 h2 hnil, hnil, List.append_nil]
    · rw [add_import_some_new _ _ _ hne h1 h2 hnil]
      exact perm_sortByDataDesc _
  · exact ⟨by decide, by decide, by decide⟩

/-- Witness for the dedup-partition statement at the {A,B} versus {B,C}
scenario frames. -/
theorem merge_keeps_exactly_new_codes_witness :
    List.Perm ((add_import_to_historical ⟨true, [recA, recB]⟩
        ⟨true, [recBin, recC]⟩ metaOne).ledger)
      ([recA, recB] ++ (stampList metaOne [recBin, recC]).filter
        (keepRecord (existingCodes [recA, recB]))) :=
  merge_keeps_exactly_new_codes.1 ⟨true, [recA, recB]⟩ ⟨true, [recBin, recC]⟩
    metaOne (by decide) rfl rfl

/-- C2: if the existing ledger is non-empty, both frames carry the code
column, and every incoming record's transaction code already occurs among the
existing ledger's codes, the merge returns the existing ledger unchanged,
performs no store write, and signals the all-duplicates outcome to the caller
rather than raising an error. -/
theorem merge_zero_new_is_noop (historical incoming : DataFrame)
    (m : ImportBatchMetadata) (hne : historical.rows ≠ [])
    (h1 : historical.hasCodiceCol = true) (h2 : incoming.hasCodiceCol = true)
    (hall : ∀ r ∈ incoming.rows, ∃ c, r.codice_transazione = some c ∧
        c ∈ existingCodes historical.rows) :
    add_import_to_historical historical incoming m =
      { ledger := historical.rows, wrote := false,
        msg := MergeMsg.tutteDuplicate } :=
  merge_noop_of_all_dup hne h1 h2 hall

/-- Witness: re-importing a batch whose only record repeats code `B` leaves
the two-row ledger untouched and unwritten. -/
theorem merge_zero_new_is_noop_witness :
    add_import_to_historical ⟨true, [recA, recB]⟩ ⟨true, [recBin]⟩ metaTwo =
      { ledger := [recA, recB], wrote := false,
        msg := MergeMsg.tutteDuplicate } :=
  merge_zero_new_is_noop _ _ _ (by decide) rfl rfl
    (by
      intro r hr
      rw [List.mem_singleton] at hr
      subst hr
      exact ⟨"B", rfl, by decide⟩)

/-- C5 counterexample: with an empty existing ledger the merge does not return
the stamped incoming batch with its order intact — a batch arriving in
ascending date order comes back reversed by the date sort. -/
theorem merge_empty_not_order_preserving :
    (add_import_to_historical ⟨true, []⟩ ⟨true, [recA, recC]⟩ metaOne).ledger ≠
      stampList metaOne [recA, recC] := by decide

/-- C5 amended: if the existing ledger is empty, the merge result is the
incoming batch after provenance stamping, reordered by the date sort
(descending, missing dates last in their prior order): the same records with
none dropped — a permutation of the stamped batch, equal to its sort — and
the result is written. -/
theorem merge_into_empty_ledger (historical incoming : DataFrame)
    (m : ImportBatchMetadata) (h : historical.rows = []) :
    (add_import_to_historical historical incoming m).ledger =
      sortByDataDesc (stampList m incoming.rows) ∧
    List.Perm ((add_import_to_historical historical incoming m).ledger)
      (stampList m incoming.rows) ∧
    (add_import_to_historical historical incoming m).wrote = true := by
  rw [add_import_empty _ _ _ h]
  exact ⟨rfl, perm_sortByDataDesc _, rfl⟩

/-- Witness for the empty-ledger merge at a concrete two-row batch. -/
theorem merge_into_empty_ledger_witness :
    (add_import_to_historical ⟨true, []⟩ ⟨true, [recA, recC]⟩ metaOne).ledger =
      sortByDataDesc (stampList metaOne [recA, recC]) ∧
    List.Perm ((add_import_to_historical ⟨true, []⟩ ⟨true, [recA, recC]⟩
        metaOne).ledger)
      (stampList metaOne [recA, recC]) ∧
    (add_import_to_historical ⟨true, []⟩ ⟨true, [recA, recC]⟩
        metaOne).wrote = true :=
  merge_into_empty_ledger _ _ _ rfl

/-- C4: the synthetic-key collision. Two distinct one-row batches that both
lack transaction codes receive the same position-derived code `TXN_0` from the
cleaning step; merging the first into an empty ledger and then merging the
second drops the second batch's record as a duplicate of the first batch's
distinct record — the merge reports everything already present, writes
nothing, and the February record never reaches the ledger. -/
theorem synthetic_codes_collide_across_batches :
    clean_and_standardize_codes false [rawGennaio] ≠
      clean_and_standardize_codes false [rawFebbraio] ∧
    (add_import_to_historical
        ⟨true, (add_import_to_historical ⟨false, []⟩
          ⟨true, clean_and_standardize_codes false [rawGennaio]⟩
          metaOne).ledger⟩
        ⟨true, clean_and_standardize_codes false [rawFebbraio]⟩ metaTwo).msg =
      MergeMsg.tutteDuplicate ∧
    (add_import_to_historical
        ⟨true, (add_import_to_historical ⟨false, []⟩
          ⟨true, clean_and_standardize_codes false [rawGennaio]⟩
          metaOne).ledger⟩
        ⟨true, clean_and_standardize_codes false [rawFebbraio]⟩
        metaTwo).wrote = false ∧
    ∀ r ∈ (add_import_to_historical
        ⟨true, (add_import_to_historical ⟨false, []⟩
          ⟨true, clean_and_standardize_codes false [rawGennaio]⟩
          metaOne).ledger⟩
        ⟨true, clean_and_standardize_codes false [rawFebbraio]⟩
        metaTwo).ledger, r.nome ≠ "bonifico-febbraio" := by decide

/-- C6: the merge is idempotent on record sets — re-merging a batch whose
records all carry transaction codes into the ledger that the first merge
produced returns that ledger exactly, no matter the provenances. -/
theorem merge_idempotent (L B : DataFrame) (m1 m2 : ImportBatchMetadata)
    (hB : B.hasCodiceCol = true)
    (hc : ∀ r ∈ B.rows, r.codice_transazione.isSome = true) :
    (add_import_to_historical
        ⟨true, (add_import_to_historical L B m1).ledger⟩ B m2).ledger =
      (add_import_to_historical L B m1).ledger := by
  by_cases hboth : L.rows = [] ∧ B.rows = []
  · obtain ⟨hL, hBr⟩ := hboth
    have hM1 : (add_import_to_historical L B m1).ledger = [] := by
      rw [add_import_empty L B m1 hL, hBr]
      rfl
    rw [hM1, add_import_empty ⟨true, []⟩ B m2 rfl, hBr]
    rfl
  · have hor : L.rows ≠ [] ∨ B.rows ≠ [] := by
      rcases Classical.em (L.rows = []) with hL | hL
      · exact Or.inr fun hBr => hboth ⟨hL, hBr⟩
      · exact Or.inl hL
    have hne : (add_import_to_historical L B m1).ledger ≠ [] :=
      ledger_ne_nil hor
    have hall : ∀ r ∈ B.rows, ∃ c, r.codice_transazione = some c ∧
        c ∈ existingCodes
          ((⟨true, (add_import_to_historical L B m1).ledger⟩ : DataFrame).rows) := by
      intro r hr
      obtain ⟨c, hcc⟩ := Option.isSome_iff_exists.mp (hc r hr)
      exact ⟨c, hcc, code_mem_ledger_codes hr hcc⟩
    rw [merge_noop_of_all_dup hne rfl hB hall]

/-- Witness for merge idempotence at a concrete one-row ledger and two-row
batch. -/
theorem merge_idempotent_witness :
    (add_import_to_historical
        ⟨true, (add_import_to_historical ⟨true, [recA]⟩ ⟨true, [recB, recC]⟩
          metaOne).ledger⟩ ⟨true, [recB, recC]⟩ metaTwo).ledger =
      (add_import_to_historical ⟨true, [recA]⟩ ⟨true, [recB, recC]⟩
        metaOne).ledger :=
  merge_idempotent ⟨true, [recA]⟩ ⟨true, [recB, recC]⟩ metaOne metaTwo rfl
    (by decide)

/-- C7: when the uploaded file's raw-byte fingerprint matches the fingerprint
recorded in some prior import-history entry, the upload is skipped before
parsing or merging: the merger is not invoked, neither the ledger nor the
metadata document is written, and both are left as they were. -/
theorem upload_skips_on_known_fingerprint (history : List ImportBatchMetadata)
    (fileHash : String) (historical incoming : DataFrame)
    (m : ImportBatchMetadata)
    (hdup : fileHash ∈ history.map fun imp => imp.file_hash.getD "") :
    process_upload history fileHash historical incoming m =
      { skipped := true, mergerInvoked := false, ledgerWritten := false,
        metadataWritten := false, ledger := historical.rows,
        history := history } := by
  simp [process_upload, hdup]

/-- Witness: re-uploading the bytes of the already-recorded January file is
skipped with no merge and no writes. -/
theorem upload_skips_on_known_fingerprint_witness :
    process_upload [metaOne] "d41d8cd98f00b204" ⟨true, [recA]⟩
        ⟨true, [recC]⟩ metaTwo =
      { skipped := true, mergerInvoked := false, ledgerWritten := false,
        metadataWritten := false, ledger := [recA], history := [metaOne] } :=
  upload_skips_on_known_fingerprint [metaOne] "d41d8cd98f00b204" ⟨true, [recA]⟩
    ⟨true, [recC]⟩ metaTwo (by decide)

/-- C8: the ledger read is total and never surfaces an exception: whenever
the GET is not a successful 200 whose content decodes — a non-success status,
a raised request, or a failed decode — it returns the empty ledger. -/
theorem load_dataframe_empty_on_failure (fr : FetchOutcome (List Record))
    (h : fetchSucceeded fr = false) : load_dataframe fr = [] := by
  cases fr with
  | response status decoded =>
    cases decoded with
    | ok rows =>
      have hb : (status == 200) = false := by
        simpa [fetchSucceeded] using h
      simp [load_dataframe, hb]
    | error e => rfl
  | exn msg => rfl

/-- Witness: a 500 response and other failures yield the empty ledger. -/
theorem load_dataframe_empty_on_failure_witness :
    load_dataframe (FetchOutcome.response 500 (Except.ok [recA])) = [] :=
  load_dataframe_empty_on_failure _ (by decide)

/-- C9: deleting a category that is present in the taxonomy removes it from
`categories` and drops its `subcategories` entry, while the import history
and every record of the ledger — including records still tagged with the
removed category — are left unchanged. -/
theorem remove_category_frame (s : AppState) (name : String)
    (hmem : name ∈ s.metadata.categories)
    (hnd : s.metadata.categories.Nodup) :
    (delete_category_handler s name).metadata.categories =
      s.metadata.categories.erase name ∧
    name ∉ (delete_category_handler s name).metadata.categories ∧
    (delete_category_handler s name).metadata.subcategories =
      s.metadata.subcategories.filter (fun kv => decide (kv.1 ≠ name)) ∧
    (∀ kv ∈ (delete_category_handler s name).metadata.subcategories,
      kv.1 ≠ name) ∧
    (delete_category_handler s name).metadata.import_history =
      s.metadata.import_history ∧
    (delete_category_handler s name).historical = s.historical := by
  have hsub : (delete_category_handler s name).metadata.subcategories =
      s.metadata.subcategories.filter (fun kv => decide (kv.1 ≠ name)) := by
    show (if name ∈ s.metadata.subcategories.map Prod.fst then
        s.metadata.subcategories.filter fun kv => decide (kv.1 ≠ name)
      else s.metadata.subcategories) = _
    by_cases hk : name ∈ s.metadata.subcategories.map Prod.fst
    · rw [if_pos hk]
    · rw [if_neg hk]
      refine (List.filter_eq_self.mpr ?_).symm
      intro kv hkv
      rcases Classical.em (kv.1 = name) with he | he
      · exact absurd (he ▸ List.mem_map_of_mem Prod.fst hkv) hk
      · exact decide_eq_true he
  refine ⟨rfl, hnd.not_mem_erase, hsub, ?_, rfl, rfl⟩
  intro kv hkv
  rw [hsub] at hkv
  have := (List.mem_filter.mp hkv).2
  exact of_decide_eq_true this

/-- Witness: removing "Marketing" from the default taxonomy over a ledger
holding a Marketing-tagged row leaves the row untouched. -/
theorem remove_category_frame_witness :
    (delete_category_handler
        ⟨default_metadata, [{ nome := "ads", categoria := "Marketing" }]⟩
        "Marketing").metadata.categories =
      default_metadata.categories.erase "Marketing" ∧
    "Marketing" ∉ (delete_category_handler
        ⟨default_metadata, [{ nome := "ads", categoria := "Marketing" }]⟩
        "Marketing").metadata.categories ∧
    (delete_category_handler
        ⟨default_metadata, [{ nome := "ads", categoria := "Marketing" }]⟩
        "Marketing").metadata.subcategories =
      default_metadata.subcategories.filter
        (fun kv => decide (kv.1 ≠ "Marketing")) ∧
    (∀ kv ∈ (delete_category_handler
        ⟨default_metadata, [{ nome := "ads", categoria := "Marketing" }]⟩
        "Marketing").metadata.subcategories, kv.1 ≠ "Marketing") ∧
    (delete_category_handler
        ⟨default_metadata, [{ nome := "ads", categoria := "Marketing" }]⟩
        "Marketing").metadata.import_history =
      default_metadata.import_history ∧
    (delete_category_handler
        ⟨default_metadata, [{ nome := "ads", categoria := "Marketing" }]⟩
        "Marketing").historical =
      [{ nome := "ads", categoria := "Marketing" }] :=
  remove_category_frame
    ⟨default_metadata, [{ nome := "ads", categoria := "Marketing" }]⟩
    "Marketing" (by decide) (by decide)

/-- C10: the two absence paths of the metadata read differ — any non-200
response yields the built-in default document (eight preset categories, four
preset subcategory lists, empty import history, no last-update), while a
raised request or a failed decode of a 200 yields the empty mapping with no
categories and no import history at all; the two results are distinct. -/
theorem load_metadata_absence_paths :
    (∀ (status : Nat) (decoded : Except String MetadataDoc), status ≠ 200 →
        load_metadata (FetchOutcome.response status decoded) =
          default_metadata) ∧
    (∀ msg, load_metadata (FetchOutcome.exn msg) = empty_metadata) ∧
    default_metadata.categories.length = 8 ∧
    default_metadata.subcategories.length = 4 ∧
    default_metadata.import_history = [] ∧
    default_metadata.last_update = none ∧
    empty_metadata.categories = [] ∧
    empty_metadata.import_history = [] ∧
    default_metadata ≠ empty_metadata := by
  refine ⟨?_, fun _ => rfl, rfl, rfl, rfl, rfl, rfl, rfl, by decide⟩
  intro status decoded hs
  have hb : (status == 200) = false := by
    simpa using hs
  cases decoded <;> simp [load_metadata, hb]

/-- Witness: a 404 yields the default document, a raised request yields the
empty mapping. -/
theorem load_metadata_absence_paths_witness :
    load_metadata (FetchOutcome.response 404
        (Except.error "Not Found")) = default_metadata ∧
    load_metadata (FetchOutcome.exn "timeout") = empty_metadata :=
  ⟨load_metadata_absence_paths.1 404 (Except.error "Not Found") (by decide),
    load_metadata_absence_paths.2.1 "timeout"⟩

end PaypalManager
